import Mathlib

/-!
# Verification of the Eatzy auth-service core

Shallow embedding of the auth-service bridge (identity reconciliation hook,
token verification endpoint, configuration cache/service, origin policy)
together with theorems settling the specification claims.

External collaborators (the legacy Eatzy HTTP API, better-auth's session
lookup and password hashing, the Postgres driver) are modelled as explicit
inputs: every fallible external call is represented by a value describing
the outcome that call produced during the request under consideration.
-/

namespace AuthService

/-! ## String helpers (JavaScript semantics) -/

/-- Substring containment on character lists. -/
def listContainsSub (hay needle : List Char) : Bool :=
  (List.range (hay.length + 1)).any fun i => needle.isPrefixOf (hay.drop i)

/-- JavaScript `hay.includes(needle)`: substring containment. -/
def strContainsSub (hay needle : String) : Bool :=
  listContainsSub hay.data needle.data

/-- JavaScript `s.split(sep)` with a single-character separator, on
character lists. -/
def splitChar (sep : Char) : List Char → List (List Char)
  | [] => [[]]
  | c :: rest =>
    if c = sep then [] :: splitChar sep rest
    else
      match splitChar sep rest with
      | s :: tail => (c :: s) :: tail
      | [] => [[c]]

/-- JavaScript `s.split(sep)` with a single-character separator. -/
def jsSplit (s : String) (sep : Char) : List String :=
  (splitChar sep s.data).map String.mk

/-- JavaScript `arr.join(sep)`. -/
def joinSep (sep : String) : List String → String
  | [] => ""
  | [x] => x
  | x :: y :: xs => x ++ sep ++ joinSep sep (y :: xs)

/-- JavaScript `s.startsWith(p)`. -/
def strStartsWith (s p : String) : Bool := p.data.isPrefixOf s.data

/-- JavaScript `s.endsWith(p)`. -/
def strEndsWith (s p : String) : Bool := p.data.isSuffixOf s.data

/-- JavaScript `x || d` for an optional string `x`: the fallback applies both
when the value is absent and when it is the empty string (falsy). -/
def orElseStr (x : Option String) (d : String) : String :=
  match x with
  | some s => if s = "" then d else s
  | none => d

/-! ## `decodeURIComponent`

Model of the ECMAScript `decodeURIComponent` builtin used by the verify
endpoint, as a partial function: `none` models the `URIError` thrown on a
malformed escape sequence (a `%` not followed by two hex digits, or
percent-escaped bytes that do not form valid UTF-8). -/

/-- Value of one hexadecimal digit character (the ranges are the ASCII codes
of 0–9, A–F and a–f). -/
def hexDigitVal (c : Char) : Option Nat :=
  let n := c.toNat
  if 48 ≤ n ∧ n ≤ 57 then some (n - 48)
  else if 65 ≤ n ∧ n ≤ 70 then some (n - 55)
  else if 97 ≤ n ∧ n ≤ 102 then some (n - 87)
  else none

/-- One scanned unit of a percent-encoded string: a literal character or a
percent-escaped byte. -/
inductive PctItem where
  | lit (c : Char)
  | byte (b : Nat)
deriving DecidableEq, Repr

/-- First pass: each `%` must be followed by two hex digits and yields a byte;
other characters pass through. -/
def pctTokenize : List Char → Option (List PctItem)
  | [] => some []
  | c :: rest =>
    if c = '%' then
      match rest with
      | a :: b :: rest2 =>
        match hexDigitVal a, hexDigitVal b with
        | some ha, some hb => (pctTokenize rest2).map (PctItem.byte (16 * ha + hb) :: ·)
        | _, _ => none
      | _ => none
    else (pctTokenize rest).map (PctItem.lit c :: ·)

/-- UTF-8 continuation byte. -/
def isContByte (b : Nat) : Bool := 0x80 ≤ b && b < 0xC0

/-- Constraint on the first continuation byte, per leading byte (rules out
overlong encodings, surrogates, and code points above U+10FFFF). -/
def utf8Cont1Ok (b b1 : Nat) : Bool :=
  if b = 0xE0 then 0xA0 ≤ b1 && b1 ≤ 0xBF
  else if b = 0xED then 0x80 ≤ b1 && b1 ≤ 0x9F
  else if b = 0xF0 then 0x90 ≤ b1 && b1 ≤ 0xBF
  else if b = 0xF4 then 0x80 ≤ b1 && b1 ≤ 0x8F
  else isContByte b1

/-- Second pass: percent-escaped bytes must form valid UTF-8 sequences
(every byte of a multi-byte character must itself be percent-escaped). -/
def utf8Decode : List PctItem → Option (List Char)
  | [] => some []
  | .lit c :: rest => (utf8Decode rest).map (c :: ·)
  | .byte b :: rest =>
    if b < 0x80 then (utf8Decode rest).map (Char.ofNat b :: ·)
    else if 0xC2 ≤ b ∧ b ≤ 0xDF then
      match rest with
      | .byte b1 :: rest1 =>
        if isContByte b1 then
          (utf8Decode rest1).map (Char.ofNat ((b - 0xC0) * 0x40 + (b1 - 0x80)) :: ·)
        else none
      | _ => none
    else if 0xE0 ≤ b ∧ b ≤ 0xEF then
      match rest with
      | .byte b1 :: .byte b2 :: rest2 =>
        if utf8Cont1Ok b b1 && isContByte b2 then
          (utf8Decode rest2).map
            (Char.ofNat ((b - 0xE0) * 0x1000 + (b1 - 0x80) * 0x40 + (b2 - 0x80)) :: ·)
        else none
      | _ => none
    else if 0xF0 ≤ b ∧ b ≤ 0xF4 then
      match rest with
      | .byte b1 :: .byte b2 :: .byte b3 :: rest3 =>
        if utf8Cont1Ok b b1 && isContByte b2 && isContByte b3 then
          (utf8Decode rest3).map
            (Char.ofNat ((b - 0xF0) * 0x40000 + (b1 - 0x80) * 0x1000 +
              (b2 - 0x80) * 0x40 + (b3 - 0x80)) :: ·)
        else none
      | _ => none
    else none

/-- Model of `decodeURIComponent` as a partial function (`none` = `URIError`). -/
def decodeURIComponentOpt (s : String) : Option String :=
  (pctTokenize s.data).bind fun items => (utf8Decode items).map fun cs => String.mk cs

/-! ## Token Verification Service (`POST /api/verify`)

From `src/server.ts` lines 434–535 (identical to `src/unnamed/part_008`
lines 175–276).  `auth.api.getSession` (better-auth) is the external
session-lookup primitive: it is modelled as a function from the token placed
in the session cookie to the session data it reports, where `none` covers
both "no session with this token" and "session expired". -/

structure VUser where
  id : String
  email : String
  name : String
  emailVerified : Bool
deriving DecidableEq, Repr

structure VSession where
  id : String
  userId : String
  expiresAt : Nat
deriving DecidableEq, Repr

structure SessionData where
  user : VUser
  session : VSession
deriving DecidableEq, Repr

/-- Minimal user projection returned by the endpoint. -/
structure VerifyUserOut where
  id : String
  email : String
  name : String
  username : String
  emailVerified : Bool
deriving DecidableEq, Repr

structure VerifySessionOut where
  id : String
  userId : String
  expiresAt : Nat
deriving DecidableEq, Repr

inductive VerifyResponse where
  /-- HTTP 400 `Token is required` -/
  | missingToken
  /-- HTTP 200 `valid: true` -/
  | ok (user : VerifyUserOut) (session : VerifySessionOut)
  /-- HTTP 401 `Invalid or expired token` -/
  | invalidToken
  /-- HTTP 500 `Token verification failed` -/
  | serverError
deriving DecidableEq, Repr

/-- Username projection:
`sessionData.user.email?.split('@')[0] || sessionData.user.name`. -/
def mkVerifyUserOut (u : VUser) : VerifyUserOut :=
  let localPart := (jsSplit u.email '@').headD ""
  { id := u.id, email := u.email, name := u.name
    username := if localPart = "" then u.name else localPart
    emailVerified := u.emailVerified }

def mkVerifySessionOut (s : VSession) : VerifySessionOut :=
  { id := s.id, userId := s.userId, expiresAt := s.expiresAt }

/-- The `POST /api/verify` handler.  Returns the response together with the
number of session-store lookups performed.  `token = none` models a request
body without a token; the empty string is falsy in `if (!token)`.
A `URIError` from `decodeURIComponent` is caught by the handler's outer
`catch`, which answers 500. -/
def apiVerify (getSession : String → Option SessionData) (token : Option String) :
    VerifyResponse × Nat :=
  match token with
  | none => (.missingToken, 0)
  | some t =>
    if t = "" then (.missingToken, 0)
    else
      let needsDecoding := strContainsSub t "%"
      if needsDecoding then
        match decodeURIComponentOpt t with
        | none => (.serverError, 0)
        | some decoded =>
          match getSession decoded with
          | some sd => (.ok (mkVerifyUserOut sd.user) (mkVerifySessionOut sd.session), 1)
          | none =>
            if t ≠ decoded then
              match getSession t with
              | some sd2 => (.ok (mkVerifyUserOut sd2.user) (mkVerifySessionOut sd2.session), 2)
              | none => (.invalidToken, 2)
            else (.invalidToken, 1)
      else
        match getSession t with
        | some sd => (.ok (mkVerifyUserOut sd.user) (mkVerifySessionOut sd.session), 1)
        | none => (.invalidToken, 1)

/-! ## Legacy identity client (`EatzyUserCheckService`)

From `src/unnamed/part_007` lines 266–593 (the variant that attaches error
details to failed existence checks, cited by the claims).  Each method's
`fetch` call is modelled by a `FetchOutcome` describing what the legacy
store answered: a network/connection error (the `catch` branch), a non-2xx
HTTP response (the `!response.ok` branch, carrying the derived error text),
or a parsed JSON body. -/

/-- Outcome of one `fetch` against the legacy store. -/
inductive FetchOutcome (α : Type) where
  | netErr (msg : String)
  | httpErr (status : Int) (text : String)
  | ok (data : α)
deriving DecidableEq, Repr

/-- Shape of the `user` object of the legacy `/account/check-user` JSON response. -/
structure ApiCheckUser where
  id : Int
  email : String
  username : String
  firstname : String
  lastname : String
  confirmed : Int
  active : Int
  created_at : String
deriving DecidableEq, Repr

structure EatzyApiCheckResponse where
  userExists : Bool
  user : Option ApiCheckUser
  message : Option String
deriving DecidableEq, Repr

structure EatzyUserData where
  id : Int
  email : String
  username : String
  firstname : String
  lastname : String
  confirmed : Bool
  active : Bool
deriving DecidableEq, Repr

structure EatzyCallError where
  status : Int
  message : String
  endpoint : String
deriving DecidableEq, Repr

structure EatzyUserCheckResult where
  userExists : Bool
  userData : Option EatzyUserData
  error : Option EatzyCallError
deriving DecidableEq, Repr

/-- Method `EatzyUserCheckService.checkUserExists`. -/
def checkUserExists (f : FetchOutcome EatzyApiCheckResponse) : EatzyUserCheckResult :=
  match f with
  | .netErr msg =>
    { userExists := false, userData := none
      error := some { status := 0, message := msg, endpoint := "/account/check-user" } }
  | .httpErr status text =>
    { userExists := false, userData := none
      error := some { status := status, message := text, endpoint := "/account/check-user" } }
  | .ok data =>
    if data.userExists then
      match data.user with
      | some u =>
        { userExists := true
          userData := some
            { id := u.id, email := u.email, username := u.username
              firstname := u.firstname, lastname := u.lastname
              confirmed := u.confirmed > 0, active := u.active > 0 }
          error := none }
      | none => { userExists := false, userData := none, error := none }
    else { userExists := false, userData := none, error := none }

structure AccessToken where
  token : String
  expires_in : Int
deriving DecidableEq, Repr

structure EatzyApiAuthResponse where
  access : Option AccessToken
  refresh : Option AccessToken
  roles : Option (List (String × String))
  external_id : Option Int
deriving DecidableEq, Repr

/-- Shape of the `userData` object built by `verifyExistingUser` on success.  Note it
carries no `firstname`/`lastname` fields. -/
structure AuthVerifyUserData where
  email : String
  roles : List (String × String)
  external_id : Option Int
  legacyAccess : Option AccessToken
  legacyRefresh : Option AccessToken
deriving DecidableEq, Repr

structure AuthVerifyResult where
  valid : Bool
  userData : Option AuthVerifyUserData
  error : Option EatzyCallError
deriving DecidableEq, Repr

/-- Method `EatzyUserCheckService.verifyExistingUser`.  `data.access && data.access.token`
requires the access object to be present with a truthy (non-empty) token. -/
def verifyExistingUser (email : String) (f : FetchOutcome EatzyApiAuthResponse) :
    AuthVerifyResult :=
  match f with
  | .netErr msg =>
    { valid := false, userData := none
      error := some { status := 0, message := msg, endpoint := "/account/authorize" } }
  | .httpErr status text =>
    { valid := false, userData := none
      error := some { status := status, message := text, endpoint := "/account/authorize" } }
  | .ok data =>
    match data.access with
    | some a =>
      if a.token ≠ "" then
        { valid := true
          userData := some
            { email := email, roles := data.roles.getD []
              external_id := data.external_id
              legacyAccess := some a, legacyRefresh := data.refresh }
          error := none }
      else { valid := false, userData := none, error := none }
    | none => { valid := false, userData := none, error := none }

/-- Shape of the `user` object of the legacy `/account/create-user` JSON response. -/
structure ApiCreateUser where
  id : Int
  email : String
  username : String
  firstname : String
  lastname : String
  confirmed : Bool
  active : Bool
  created_at : String
  source : Int
deriving DecidableEq, Repr

structure EatzyApiCreateResponse where
  created : Bool
  user : Option ApiCreateUser
deriving DecidableEq, Repr

structure CreateUserResult where
  created : Bool
  userData : Option ApiCreateUser
  error : Option String
deriving DecidableEq, Repr

/-- Method `EatzyUserCheckService.createEatzyUser`.  For the `!response.ok` branch the
`httpErr` text stands for the error message after the handler's attempt to
extract a JSON `message` field from the response body. -/
def createEatzyUser (f : FetchOutcome EatzyApiCreateResponse) : CreateUserResult :=
  match f with
  | .netErr msg => { created := false, userData := none, error := some msg }
  | .httpErr _ text => { created := false, userData := none, error := some text }
  | .ok data =>
    if data.created then
      match data.user with
      | some u => { created := true, userData := some u, error := none }
      | none =>
        { created := false, userData := none, error := some "User creation response invalid" }
    else { created := false, userData := none, error := some "User creation response invalid" }

/-! ## Local store (better-auth `user` and `account` tables) -/

structure UserRec where
  id : String
  email : String
  name : String
  emailVerified : Bool
  createdAt : Nat
  updatedAt : Nat
deriving DecidableEq, Repr

structure AccountRec where
  id : String
  accountId : String
  providerId : String
  userId : String
  password : Option String
  createdAt : Nat
  updatedAt : Nat
deriving DecidableEq, Repr

structure LocalStore where
  users : List UserRec
  accounts : List AccountRec
deriving DecidableEq, Repr

/-- Query `db.select().from(user).where(eq(user.email, email)).limit(1)`. -/
def findUserByEmail (s : LocalStore) (email : String) : Option UserRec :=
  s.users.find? (fun u => u.email = email)

/-- Query `db.select().from(account).where(and(eq(account.userId, userId),
eq(account.providerId, 'credential'))).limit(1)`. -/
def findCredentialAccount (s : LocalStore) (userId : String) : Option AccountRec :=
  s.accounts.find? (fun a => a.userId = userId ∧ a.providerId = "credential")

/-! ## Reconciliation hook (`hooks.before` of the better-auth config)

From `src/unnamed/part_005` lines 158–421.  The three legacy calls the hook
can make are represented by a `LegacyEnv` giving each call's outcome;
`hashPassword` (better-auth crypto), the generated UUIDs and `new Date()`
are further external inputs. -/

structure LegacyEnv where
  check : FetchOutcome EatzyApiCheckResponse
  authorize : FetchOutcome EatzyApiAuthResponse
  create : FetchOutcome EatzyApiCreateResponse
deriving DecidableEq, Repr

structure HookBody where
  email : Option String
  password : Option String
  name : Option String
deriving DecidableEq, Repr

structure CtxUser where
  email : Option String
  name : Option String
deriving DecidableEq, Repr

structure HookCtx where
  path : String
  body : Option HookBody
  user : Option CtxUser
deriving DecidableEq, Repr

/-- A call the hook issued against the legacy store, with the payload sent. -/
inductive LegacyCall where
  | check (email : String)
  | authorize (username : String) (password : Option String)
  | create (email : String) (password : Option String)
      (firstname lastname username : String)
deriving DecidableEq, Repr

/-- Value stored into `ctx.eatzyUserData`. -/
inductive CtxData where
  | newUser (userData : Option ApiCreateUser)
  | existingSignIn (userData : Option AuthVerifyUserData)
  | existingSocial (userData : Option EatzyUserData)
deriving DecidableEq, Repr

inductive HookOutcome where
  /-- The hook returned; the native better-auth flow proceeds. -/
  | proceed (ctxData : Option CtxData)
  /-- The hook threw `Error(msg)`; the request fails. -/
  | abort (msg : String)
deriving DecidableEq, Repr

structure HookResult where
  outcome : HookOutcome
  store : LocalStore
  calls : List LegacyCall
deriving DecidableEq, Repr

/-- JS truthiness for an optional string field (`undefined` and `''` are falsy). -/
def truthyStr : Option String → Option String
  | some s => if s = "" then none else some s
  | none => none

/-- The `hooks.before` callback.  The surrounding `try/catch` rethrows, so it
is the identity on outcomes. -/
def beforeHook (env : LegacyEnv) (hashPassword : String → String)
    (freshUserId freshAccountId : String) (now : Nat)
    (ctx : HookCtx) (store : LocalStore) : HookResult :=
  if ctx.path = "/sign-up/email" then
    -- `const { email, password, name } = ctx.body || {}`
    let body := ctx.body.getD { email := none, password := none, name := none }
    match truthyStr body.email with
    | none => { outcome := .proceed none, store := store, calls := [] }
    | some email =>
      let existsResult := checkUserExists env.check
      if existsResult.userExists then
        { outcome := .abort
            ("User with email " ++ email ++ " already exists. Please login instead.")
          store := store, calls := [.check email] }
      else
        -- `const nameParts = (name || '').split(' ')`
        let nameParts := jsSplit (body.name.getD "") ' '
        let firstname := nameParts.headD ""
        let lastname := joinSep " " (nameParts.drop 1)
        -- `createEatzyUser({ email, password, firstname, lastname, username: email })`;
        -- inside, `username: userData.username || userData.email`
        let createCall := LegacyCall.create email body.password firstname lastname
          (orElseStr (some email) email)
        let createResult := createEatzyUser env.create
        if createResult.created then
          { outcome := .proceed (some (.newUser createResult.userData))
            store := store, calls := [.check email, createCall] }
        else
          { outcome := .abort
              ("Registration failed: " ++ orElseStr createResult.error "Unable to create account")
            store := store, calls := [.check email, createCall] }
  else if ctx.path = "/sign-in/email" then
    let body := ctx.body.getD { email := none, password := none, name := none }
    match truthyStr body.email with
    | none => { outcome := .proceed none, store := store, calls := [] }
    | some email =>
      let existsResult := checkUserExists env.check
      if existsResult.userExists then
        let verifyResult := verifyExistingUser email env.authorize
        let callsSoFar := [LegacyCall.check email, .authorize email body.password]
        if ¬ verifyResult.valid then
          { outcome := .abort "Invalid credentials", store := store, calls := callsSoFar }
        else
          let upd : String × LocalStore :=
            match findUserByEmail store email with
            | none =>
              -- `verifyResult.userData` has no `firstname`/`lastname` fields,
              -- so `userData?.firstname || ''` and `userData?.lastname || ''`
              -- both evaluate to ''.
              let firstname := ""
              let lastname := ""
              -- `` `${firstname} ${lastname}`.trim() || email.split('@')[0] ``
              let fullName :=
                orElseStr (some (firstname ++ " " ++ lastname).trim)
                  ((jsSplit email '@').headD "")
              (freshUserId,
                { store with users := store.users ++
                    [{ id := freshUserId, email := email, name := fullName
                       emailVerified := true, createdAt := now, updatedAt := now }] })
            | some u => (u.id, store)
          let userId := upd.1
          let store1 := upd.2
          let store2 : LocalStore :=
            match findCredentialAccount store1 userId with
            | none =>
              let hashed := hashPassword (body.password.getD "")
              { store1 with accounts := store1.accounts ++
                  [{ id := freshAccountId, accountId := email, providerId := "credential"
                     userId := userId, password := some hashed
                     createdAt := now, updatedAt := now }] }
            | some acc =>
              -- `if (currentHash && !currentHash.includes(':'))`
              match acc.password with
              | some h =>
                if h ≠ "" ∧ strContainsSub h ":" = false then
                  { store1 with accounts := store1.accounts.map fun a =>
                      if a.id = acc.id then
                        { a with password := some (hashPassword (body.password.getD ""))
                                 updatedAt := now }
                      else a }
                else store1
              | none => store1
          { outcome := .proceed (some (.existingSignIn verifyResult.userData))
            store := store2, calls := callsSoFar }
      else
        { outcome := .abort "User not found. Please register first."
          store := store, calls := [.check email] }
  else if strContainsSub ctx.path "/callback/" then
    match truthyStr (ctx.user.bind (·.email)) with
    | none => { outcome := .proceed none, store := store, calls := [] }
    | some email =>
      let existsResult := checkUserExists env.check
      if existsResult.userExists then
        let store1 :=
          match findUserByEmail store email with
          | none =>
            let firstname := orElseStr (existsResult.userData.map (·.firstname)) ""
            let lastname := orElseStr (existsResult.userData.map (·.lastname)) ""
            -- `` `${f} ${l}`.trim() || ctx.user?.name || email.split('@')[0] ``
            let fullName :=
              orElseStr (some (firstname ++ " " ++ lastname).trim)
                (orElseStr (ctx.user.bind (·.name)) ((jsSplit email '@').headD ""))
            { store with users := store.users ++
                [{ id := freshUserId, email := email, name := fullName
                   emailVerified := true, createdAt := now, updatedAt := now }] }
          | some _ => store
        { outcome := .proceed (some (.existingSocial existsResult.userData))
          store := store1, calls := [.check email] }
      else
        { outcome := .proceed none, store := store, calls := [.check email] }
  else
    { outcome := .proceed none, store := store, calls := [] }

/-! ## Configuration service (`src/services/config-service.ts`)

The static `cache` map is an association list with insert-or-replace
updates; the Postgres `configuration` table is a list of rows.  Each method
takes a `dbOk : Bool` saying whether this call's database query succeeds
(the `catch` branches model a failing backing store). -/

structure ConfigRow where
  id : String
  key : String
  value : String
  description : Option String
  category : String
  isSecret : Bool
  createdAt : Nat
  updatedAt : Nat
deriving DecidableEq, Repr

structure ConfigState where
  table : List ConfigRow
  cache : List (String × String)
  lastCacheUpdate : Nat
deriving DecidableEq, Repr

/-- JavaScript `Map.set`: insert or replace. -/
def mapSet (m : List (String × String)) (k v : String) : List (String × String) :=
  if m.any (fun p => p.1 = k) then m.map (fun p => if p.1 = k then (k, v) else p)
  else m ++ [(k, v)]

def mapLookup (m : List (String × String)) (k : String) : Option String :=
  (m.find? (fun p => p.1 = k)).map (·.2)

/-- Constant `CACHE_TTL = 30 * 1000`. -/
def CACHE_TTL : Nat := 30 * 1000

/-- Check `Date.now() - this.lastCacheUpdate < this.CACHE_TTL`. -/
def isCacheValid (now : Nat) (st : ConfigState) : Bool :=
  now - st.lastCacheUpdate < CACHE_TTL

/-- Method `ConfigService.get`: cache hit when valid, else a single-key database
lookup that updates the cache entry; on a database error the default is
returned and the state is unchanged. -/
def ConfigService.get (now : Nat) (dbOk : Bool) (st : ConfigState)
    (key : String) (defaultValue : Option String) : Option String × ConfigState :=
  if isCacheValid now st ∧ (mapLookup st.cache key).isSome then
    (mapLookup st.cache key, st)
  else if dbOk then
    match st.table.find? (fun r => r.key = key) with
    | some row => (some row.value, { st with cache := mapSet st.cache key row.value })
    | none => (defaultValue, st)
  else (defaultValue, st)

/-- Upsert into the `configuration` table:
`insert(...).values(...).onConflictDoUpdate({ target: configuration.key, ... })`.
The table has a UNIQUE constraint on `key`. -/
def tableUpsert (now : Nat) (table : List ConfigRow) (key value : String)
    (description : Option String) (category : String) (isSecret : Bool) : List ConfigRow :=
  if (table.find? (fun r => r.key = key)).isSome then
    table.map fun r =>
      if r.key = key then
        { r with value := value, description := description
                 category := category, isSecret := isSecret, updatedAt := now }
      else r
  else
    table ++ [{ id := "config_" ++ key ++ "_" ++ toString now
                key := key, value := value, description := description
                category := category, isSecret := isSecret
                createdAt := now, updatedAt := now }]

/-- Method `ConfigService.set`: upsert by unique key, then update the cache entry
synchronously; a database error is rethrown (`Except.error`). -/
def ConfigService.set (now : Nat) (dbOk : Bool) (st : ConfigState)
    (key value : String) (description : Option String)
    (category : String) (isSecret : Bool) : Except String ConfigState :=
  if dbOk then
    .ok { st with
          table := tableUpsert now st.table key value description category isSecret,
          cache := mapSet st.cache key value }
  else .error ("Failed to set config " ++ key)

/-- Method `ConfigService.loadCache`: select the whole table, then clear the cache
and refill it and stamp `lastCacheUpdate`; the `catch` branch only logs, so
on a database error the state is untouched (the clear happens after the
select has succeeded). -/
def ConfigService.loadCache (now : Nat) (dbOk : Bool) (st : ConfigState) : ConfigState :=
  if dbOk then
    { st with
      cache := st.table.foldl (fun m r => mapSet m r.key r.value) []
      lastCacheUpdate := now }
  else st

/-- Method `ConfigService.refreshCache` just delegates to `loadCache`. -/
def ConfigService.refreshCache (now : Nat) (dbOk : Bool) (st : ConfigState) : ConfigState :=
  ConfigService.loadCache now dbOk st

/-! ## Configuration routes (`src/routes/config.ts`) -/

inductive ConfigKeyResponse where
  /-- HTTP 200 with the key and value. -/
  | found (value : String)
  /-- HTTP 404 `Configuration not found` -/
  | notFound
deriving DecidableEq, Repr

/-- Route `GET /config/:key`: 404 only when `value === undefined`; an empty string
is a found value. -/
def configGetKey (now : Nat) (dbOk : Bool) (st : ConfigState) (key : String) :
    ConfigKeyResponse × ConfigState :=
  let res := ConfigService.get now dbOk st key none
  match res.1 with
  | none => (.notFound, res.2)
  | some v => (.found v, res.2)

inductive DeleteResponse where
  /-- HTTP 200 `deleted successfully` -/
  | deleted
  /-- HTTP 404 `Configuration not found` -/
  | notFound
  /-- HTTP 500 `Failed to delete configuration` -/
  | failed
deriving DecidableEq, Repr

/-- Route `DELETE /config/:key` (admin): reads the key first and reports 404 when
the value is falsy (`!existing`: absent or empty string); otherwise
"deletes" by `ConfigService.set(key, '', 'Deleted configuration', 'deleted',
false)`. -/
def configDeleteKey (now : Nat) (dbOkGet dbOkSet : Bool) (st : ConfigState)
    (key : String) : DeleteResponse × ConfigState :=
  let res := ConfigService.get now dbOkGet st key none
  match truthyStr res.1 with
  | none => (.notFound, res.2)
  | some _ =>
    match ConfigService.set now dbOkSet res.2 key ""
      (some "Deleted configuration") "deleted" false with
    | .ok st2 => (.deleted, st2)
    | .error _ => (.failed, res.2)

/-! ## Origin policy (`src/server.ts` lines 118–191)

`EnhancedEnv.getTrustedOriginsSync` / `getAllowedDomainPatternsSync` resolve
the configured lists; they are passed in here as lists, and the hostnames
successfully parsed out of `BETTER_AUTH_URL` / `API_SERVICE_URL` (`new URL`
may throw, skipping the entry) are passed as `envHostnames`. -/

/-- Function `isAllowedDomain`: for each pattern in order, a pattern starting with
`.` matches origins ending with that suffix, any other pattern requires
exact equality; first match wins. -/
def isAllowedDomain (patterns : List String) (origin : String) : Bool :=
  match patterns with
  | [] => false
  | p :: rest =>
    if strStartsWith p "." then
      if strEndsWith origin p then true else isAllowedDomain rest origin
    else
      if origin = p then true else isAllowedDomain rest origin

/-- The `cors({ origin })` callback: returns the origin to allow it, `none`
to reject.  A request without an `Origin` header is always allowed
(`origin = none` returns `origin`). -/
def corsOrigin (trusted : List String) (patterns : List String)
    (envHostnames : List String) (origin : Option String) : Option String :=
  match origin with
  | none => none
  | some o =>
    if o = "" then some o
    else if trusted.contains o then some o
    else if strContainsSub o "localhost" then some o
    else if envHostnames.any (fun h => strContainsSub o h) then some o
    else if isAllowedDomain patterns o then some o
    else none

/-! ## Spec-side definitions

These two definitions follow the specification's words (not the source) and
exist only to be compared with the source-derived behaviour in refinement
claims. -/

/-- Modelled from the spec: "split `name` on first whitespace run; remainder
is last name; empty string if no space" — firstname is the text before the
first maximal whitespace run, lastname the text after it. -/
def specSplitName (name : String) : String × String :=
  let cs := name.data
  let first := cs.takeWhile (fun c => ¬ c.isWhitespace)
  let rest := (cs.dropWhile (fun c => ¬ c.isWhitespace)).dropWhile (fun c => c.isWhitespace)
  (String.mk first, String.mk rest)

/-- Modelled from the spec: "if it starts with `.`, allow when `origin` ends
with that suffix; if it starts with a scheme, require exact equality;
otherwise treat as substring containment". -/
def specPatternMatch (origin p : String) : Bool :=
  if strStartsWith p "." then strEndsWith origin p
  else if strStartsWith p "http://" || strStartsWith p "https://" then origin = p
  else strContainsSub origin p

/-! ## Concrete fixtures

Closed values used to instantiate theorems with hypotheses at concrete
inputs (witnesses). -/

/-- Fixture: legacy store knows the user and accepts the credential. -/
def envFixture : LegacyEnv :=
  { check := .ok
      { userExists := true
        user := some
          { id := 3, email := "user@x.com", username := "user@x.com"
            firstname := "F", lastname := "L", confirmed := 1, active := 1
            created_at := "t" }
        message := none }
    authorize := .ok
      { access := some { token := "tkn", expires_in := 100 }
        refresh := none, roles := none, external_id := some 3 }
    create := .netErr "down" }

/-- Fixture: a sign-in request body for `user@x.com`. -/
def ctxFixture : HookCtx :=
  { path := "/sign-in/email"
    body := some { email := some "user@x.com", password := some "pw", name := none }
    user := none }

/-- Fixture: the local user record for `user@x.com`. -/
def userFixture : UserRec :=
  { id := "U", email := "user@x.com", name := "n", emailVerified := true
    createdAt := 0, updatedAt := 0 }

/-- Fixture: a credential account holding a pre-migration 32-character hash
with no ':' marker. -/
def accFixture : AccountRec :=
  { id := "A", accountId := "user@x.com", providerId := "credential", userId := "U"
    password := some "0123456789abcdef0123456789abcdef"
    createdAt := 0, updatedAt := 0 }

/-- Fixture: local store containing the user and its credential account. -/
def storeFixture : LocalStore :=
  { users := [userFixture], accounts := [accFixture] }

/-! ## Supporting lemmas -/

theorem orElseStr_self (s : String) : orElseStr (some s) s = s := by
  by_cases h : s = "" <;> simp [orElseStr, h]

theorem listContainsSub_of_mem {l : List Char} {c : Char} (h : c ∈ l) :
    listContainsSub l [c] = true := by
  obtain ⟨i, hi, hget⟩ := List.mem_iff_getElem.mp h
  unfold listContainsSub
  rw [List.any_eq_true]
  refine ⟨i, ?_, ?_⟩
  · rw [List.mem_range]; omega
  · rw [← List.getElem_cons_drop l i hi, hget]
    simp [List.isPrefixOf]

theorem strContainsSub_single_true {t : String} {c : Char} (hm : c ∈ t.data)
    {n : String} (hn : n.data = [c]) : strContainsSub t n = true := by
  unfold strContainsSub
  rw [hn]
  exact listContainsSub_of_mem hm

theorem pctTokenize_cons_ne (c : Char) (rest : List Char) (hc : ¬ c = '%') :
    pctTokenize (c :: rest) = (pctTokenize rest).map (PctItem.lit c :: ·) := by
  match rest with
  | [] => simp [pctTokenize, hc]
  | [a] => simp [pctTokenize, hc]
  | a :: b :: rest2 => rw [pctTokenize.eq_2, if_neg hc]

theorem utf8Decode_lit_cons (c : Char) (rest : List PctItem) :
    utf8Decode (.lit c :: rest) = (utf8Decode rest).map (c :: ·) := rfl

theorem pctTokenize_of_not_mem {l : List Char} (h : '%' ∉ l) :
    pctTokenize l = some (l.map PctItem.lit) := by
  induction l with
  | nil => rfl
  | cons c rest ih =>
    have hc : ¬ c = '%' := fun hc => h (hc ▸ List.mem_cons_self c rest)
    have hr : '%' ∉ rest := fun hm => h (List.mem_cons_of_mem c hm)
    rw [pctTokenize_cons_ne c rest hc, ih hr]
    rfl

theorem utf8Decode_map_lit (l : List Char) : utf8Decode (l.map PctItem.lit) = some l := by
  induction l with
  | nil => rfl
  | cons c rest ih =>
    rw [List.map_cons, utf8Decode_lit_cons, ih]
    rfl

/-- A string without a percent sign decodes to itself. -/
theorem decode_no_pct {t : String} (h : strContainsSub t "%" = false) :
    decodeURIComponentOpt t = some t := by
  have hm : '%' ∉ t.data := by
    intro hmem
    rw [strContainsSub_single_true hmem (n := "%") (by decide)] at h
    cases h
  obtain ⟨d⟩ := t
  simp only [decodeURIComponentOpt]
  rw [pctTokenize_of_not_mem hm]
  simp [utf8Decode_map_lit]

theorem mapLookup_mapSet_self (m : List (String × String)) (k v : String) :
    mapLookup (mapSet m k v) k = some v := by
  unfold mapSet mapLookup
  by_cases h : m.any (fun p => p.1 = k)
  · simp only [if_pos h]
    rw [List.find?_map]
    have hpred : ((fun p : String × String => decide (p.1 = k)) ∘
        (fun p => if p.1 = k then (k, v) else p)) =
        (fun p : String × String => decide (p.1 = k)) := by
      funext p
      by_cases hp : p.1 = k <;> simp [hp]
    rw [hpred]
    have hs : (m.find? (fun p => p.1 = k)).isSome :=
      List.find?_isSome.mpr (by simpa using h)
    obtain ⟨q, hq⟩ := Option.isSome_iff_exists.mp hs
    have hqk : q.1 = k := by simpa using List.find?_some hq
    rw [hq]
    simp [hqk]
  · simp only [if_neg h]
    rw [List.find?_append]
    have hnone : m.find? (fun p => p.1 = k) = none := by
      rw [List.find?_eq_none]
      intro x hx hxk
      exact h (List.any_eq_true.mpr ⟨x, hx, hxk⟩)
    rw [hnone]
    simp

/-- After an upsert, looking up the key finds a row carrying the written
value and category. -/
theorem tableUpsert_find (now : Nat) (table : List ConfigRow) (k v : String)
    (d : Option String) (c : String) (s : Bool) :
    ∃ row, (tableUpsert now table k v d c s).find? (fun r => r.key = k) = some row ∧
      row.key = k ∧ row.value = v ∧ row.category = c := by
  unfold tableUpsert
  by_cases h : (table.find? (fun r => r.key = k)).isSome
  · simp only [if_pos h]
    rw [List.find?_map]
    have hpred : ((fun r : ConfigRow => decide (r.key = k)) ∘
        (fun r : ConfigRow => if r.key = k then
          { r with value := v, description := d, category := c,
                   isSecret := s, updatedAt := now } else r)) =
        (fun r : ConfigRow => decide (r.key = k)) := by
      funext r
      by_cases hr : r.key = k <;> simp [hr]
    rw [hpred]
    obtain ⟨q, hq⟩ := Option.isSome_iff_exists.mp h
    have hqk : q.key = k := by simpa using List.find?_some hq
    rw [hq]
    refine ⟨_, rfl, ?_⟩
    simp [hqk]
  · simp only [if_neg h]
    rw [List.find?_append]
    rw [Option.not_isSome_iff_eq_none.mp h]
    simp

/-- Reading a key whose cache entry is the empty string and whose table row
(if any is consulted) also carries the empty string yields a falsy value,
whatever the clock and database health. -/
theorem get_falsy_after_delete (now : Nat) (g : Bool) (st2 : ConfigState) (key : String)
    (hc : mapLookup st2.cache key = some "")
    (ht : ∃ row, st2.table.find? (fun r => r.key = key) = some row ∧ row.value = "") :
    truthyStr (ConfigService.get now g st2 key none).1 = none := by
  unfold ConfigService.get
  by_cases hvalid : (isCacheValid now st2 = true ∧ (mapLookup st2.cache key).isSome = true)
  · rw [if_pos hvalid]
    rw [show (mapLookup st2.cache key, st2).1 = some "" from by rw [hc]]
    rfl
  · rw [if_neg hvalid]
    cases g with
    | false => rfl
    | true =>
      obtain ⟨row, hrow, hval⟩ := ht
      simp only [if_pos rfl, hrow, hval]
      rfl

/-- Reading a key in the same situation with a healthy database yields the
empty string (found, not a 404). -/
theorem get_empty_after_delete (now : Nat) (st2 : ConfigState) (key : String)
    (hc : mapLookup st2.cache key = some "")
    (ht : ∃ row, st2.table.find? (fun r => r.key = key) = some row ∧ row.value = "") :
    (ConfigService.get now true st2 key none).1 = some "" := by
  unfold ConfigService.get
  by_cases hvalid : (isCacheValid now st2 = true ∧ (mapLookup st2.cache key).isSome = true)
  · rw [if_pos hvalid]
    exact hc
  · obtain ⟨row, hrow, hval⟩ := ht
    rw [if_neg hvalid]
    simp [hrow, hval]

/-! ## Claim theorems -/

/-- C6: a `ConfigCache` full reload (`refreshCache`/`loadCache`) that fails
because the backing store errors leaves every previously cached key readable
with its pre-failure value: the failed reload neither clears nor partially
modifies the cache (it does not even touch `lastCacheUpdate`). -/
theorem C6_failed_reload_preserves_cache (now : Nat) (st : ConfigState) (k : String) :
    mapLookup (ConfigService.refreshCache now false st).cache k = mapLookup st.cache k ∧
    ConfigService.refreshCache now false st = st := by
  constructor <;> simp [ConfigService.refreshCache, ConfigService.loadCache]

/-- C10: a sign-up or sign-in request whose body has no (truthy) email field
makes the reconciliation hook return immediately: no legacy-store call, no
local-store write, and the native flow proceeds with no attached context. -/
theorem C10_no_email_skips_reconciliation (env : LegacyEnv) (hp : String → String)
    (fu fa : String) (now : Nat) (b : Option HookBody) (cu : Option CtxUser)
    (store : LocalStore) (path : String)
    (hpath : path = "/sign-up/email" ∨ path = "/sign-in/email")
    (he : (b.getD { email := none, password := none, name := none }).email = none) :
    beforeHook env hp fu fa now { path := path, body := b, user := cu } store =
      { outcome := .proceed none, store := store, calls := [] } := by
  rcases hpath with h | h <;> subst h <;> simp [beforeHook, he, truthyStr]

/-- Witness for C10 at a concrete request with an email-less body. -/
theorem C10_no_email_skips_reconciliation_witness :
    beforeHook { check := .netErr "down", authorize := .netErr "down", create := .netErr "down" }
        (fun p => p) "u1" "a1" 7
        { path := "/sign-in/email",
          body := some { email := none, password := some "pw", name := none }, user := none }
        { users := [], accounts := [] } =
      { outcome := .proceed none, store := { users := [], accounts := [] }, calls := [] } :=
  C10_no_email_skips_reconciliation _ _ _ _ _ _ _ _ _ (Or.inr rfl) rfl

/-- C3: when the legacy store reports the email as existing, sign-up aborts
with the already-exists outcome, the message contains the email, the local
store is untouched, and the only legacy call made is the existence check. -/
theorem C3_signup_already_exists (env : LegacyEnv) (hp : String → String)
    (fu fa : String) (now : Nat) (email : String) (pw nm : Option String)
    (cu : Option CtxUser) (store : LocalStore)
    (hemail : email ≠ "")
    (hex : (checkUserExists env.check).userExists = true) :
    beforeHook env hp fu fa now
        { path := "/sign-up/email",
          body := some { email := some email, password := pw, name := nm }, user := cu }
        store =
      { outcome := .abort ("User with email " ++ email ++
          " already exists. Please login instead."),
        store := store, calls := [.check email] } ∧
    ∃ pre post, ("User with email " ++ email ++ " already exists. Please login instead.")
      = pre ++ email ++ post := by
  refine ⟨?_, "User with email ", " already exists. Please login instead.", rfl⟩
  simp [beforeHook, truthyStr, hemail, hex]

/-- Witness for C3 at a concrete request and legacy response. -/
theorem C3_signup_already_exists_witness :
    beforeHook
        { check :=
            .ok { userExists := true,
                  user := some { id := 3, email := "ann@x.com", username := "ann@x.com",
                                 firstname := "Ann", lastname := "Lee", confirmed := 1,
                                 active := 1, created_at := "2020" },
                  message := none },
          authorize := .netErr "down", create := .netErr "down" }
        (fun p => p) "u1" "a1" 7
        { path := "/sign-up/email",
          body := some { email := some "ann@x.com", password := some "pw123456",
                         name := some "Ann Lee" }, user := none }
        { users := [], accounts := [] } =
      { outcome := .abort "User with email ann@x.com already exists. Please login instead.",
        store := { users := [], accounts := [] }, calls := [.check "ann@x.com"] } := by
  have h := C3_signup_already_exists
    { check :=
        .ok { userExists := true,
              user := some { id := 3, email := "ann@x.com", username := "ann@x.com",
                             firstname := "Ann", lastname := "Lee", confirmed := 1,
                             active := 1, created_at := "2020" },
              message := none },
      authorize := .netErr "down", create := .netErr "down" }
    (fun p => p) "u1" "a1" 7 "ann@x.com" (some "pw123456") (some "Ann Lee") none
    { users := [], accounts := [] } (by decide) (by decide)
  exact h.1

/-- C1 (counterexample): with the legacy existence check failing on a network
error, sign-in aborts with exactly the same "User not found" outcome as a
genuine not-registered response — the caller cannot distinguish a legacy
outage from absence, contrary to the claim. -/
theorem C1_legacy_failure_counterexample :
    (beforeHook { check := .netErr "ECONNREFUSED", authorize := .netErr "down",
                  create := .netErr "down" }
        (fun p => p) "u1" "a1" 0
        { path := "/sign-in/email",
          body := some { email := some "user@x.com", password := some "pw", name := none },
          user := none }
        { users := [], accounts := [] }).outcome =
      .abort "User not found. Please register first." ∧
    beforeHook { check := .netErr "ECONNREFUSED", authorize := .netErr "down",
                 create := .netErr "down" }
        (fun p => p) "u1" "a1" 0
        { path := "/sign-in/email",
          body := some { email := some "user@x.com", password := some "pw", name := none },
          user := none }
        { users := [], accounts := [] } =
      beforeHook { check := .ok { userExists := false, user := none, message := none },
                   authorize := .netErr "down", create := .netErr "down" }
        (fun p => p) "u1" "a1" 0
        { path := "/sign-in/email",
          body := some { email := some "user@x.com", password := some "pw", name := none },
          user := none }
        { users := [], accounts := [] } := by
  constructor <;> decide

/-- C1 (amended): any legacy-store failure (network error or non-2xx HTTP
response) during sign-in's existence check makes the hook abort with the
same "User not found. Please register first." outcome as a genuine absence;
the error details attached by `checkUserExists` are discarded, so no
distinguishable transient-error outcome is surfaced. -/
theorem C1_legacy_failure_amended (env : LegacyEnv) (hp : String → String)
    (fu fa : String) (now : Nat) (email : String) (pw nm : Option String)
    (cu : Option CtxUser) (store : LocalStore)
    (hemail : email ≠ "")
    (hfail : (∃ m, env.check = .netErr m) ∨ (∃ s t, env.check = .httpErr s t)) :
    beforeHook env hp fu fa now
        { path := "/sign-in/email",
          body := some { email := some email, password := pw, name := nm }, user := cu }
        store =
      { outcome := .abort "User not found. Please register first.",
        store := store, calls := [.check email] } ∧
    beforeHook env hp fu fa now
        { path := "/sign-in/email",
          body := some { email := some email, password := pw, name := nm }, user := cu }
        store =
      beforeHook { env with check := .ok { userExists := false, user := none, message := none } }
        hp fu fa now
        { path := "/sign-in/email",
          body := some { email := some email, password := pw, name := nm }, user := cu }
        store ∧
    (checkUserExists env.check).error.isSome = true := by
  have hchk : (checkUserExists env.check).userExists = false ∧
      (checkUserExists env.check).error.isSome = true := by
    rcases hfail with ⟨m, h⟩ | ⟨s, t, h⟩ <;> rw [h] <;> simp [checkUserExists]
  have hL : beforeHook env hp fu fa now
      { path := "/sign-in/email",
        body := some { email := some email, password := pw, name := nm }, user := cu }
      store =
      { outcome := .abort "User not found. Please register first.",
        store := store, calls := [.check email] } := by
    simp [beforeHook, truthyStr, hemail, hchk.1]
  have hR : beforeHook
      { env with check := .ok { userExists := false, user := none, message := none } }
      hp fu fa now
      { path := "/sign-in/email",
        body := some { email := some email, password := pw, name := nm }, user := cu }
      store =
      { outcome := .abort "User not found. Please register first.",
        store := store, calls := [.check email] } := by
    simp [beforeHook, truthyStr, hemail, checkUserExists]
  exact ⟨hL, hL.trans hR.symm, hchk.2⟩

/-- Witness for C1's amended statement at a concrete HTTP 503 failure. -/
theorem C1_legacy_failure_amended_witness :
    beforeHook { check := .httpErr 503 "Service Unavailable", authorize := .netErr "down",
                 create := .netErr "down" }
        (fun p => p) "u1" "a1" 0
        { path := "/sign-in/email",
          body := some { email := some "user@x.com", password := some "pw", name := none },
          user := none }
        { users := [], accounts := [] } =
      { outcome := .abort "User not found. Please register first.",
        store := { users := [], accounts := [] }, calls := [.check "user@x.com"] } := by
  have h := C1_legacy_failure_amended
    { check := .httpErr 503 "Service Unavailable", authorize := .netErr "down",
      create := .netErr "down" }
    (fun p => p) "u1" "a1" 0 "user@x.com" (some "pw") none none
    { users := [], accounts := [] } (by decide) (Or.inr ⟨503, "Service Unavailable", rfl⟩)
  exact h.1

/-- C8 (counterexample): sign-up with name "Ann  Lee" (two spaces) calls the
legacy create with lastname " Lee" (leading space preserved), while the
spec's split-on-first-whitespace-run derivation yields "Lee" — the code
splits on every single space, not on a whitespace run. -/
theorem C8_name_split_counterexample :
    (beforeHook { check := .ok { userExists := false, user := none, message := none },
                  authorize := .netErr "down",
                  create := .ok { created := false, user := none } }
        (fun p => p) "u1" "a1" 0
        { path := "/sign-up/email",
          body := some { email := some "new@x.com", password := some "pw123456",
                         name := some "Ann  Lee" }, user := none }
        { users := [], accounts := [] }).calls =
      [.check "new@x.com",
       .create "new@x.com" (some "pw123456") "Ann" " Lee" "new@x.com"] ∧
    specSplitName "Ann  Lee" = ("Ann", "Lee") ∧ " Lee" ≠ "Lee" := by
  refine ⟨by decide, by decide, by decide⟩

/-- C8 (amended): for every sign-up that reaches the legacy create call, the
name fields are derived by splitting `name` on every single space character:
firstname is the first segment, lastname is the remaining segments rejoined
with single spaces (the text after the first space), each empty when absent;
the local store is never touched by the sign-up hook. -/
theorem C8_name_split_amended (env : LegacyEnv) (hp : String → String)
    (fu fa : String) (now : Nat) (email : String) (pw nm : Option String)
    (cu : Option CtxUser) (store : LocalStore)
    (hemail : email ≠ "")
    (hex : (checkUserExists env.check).userExists = false) :
    (beforeHook env hp fu fa now
        { path := "/sign-up/email",
          body := some { email := some email, password := pw, name := nm }, user := cu }
        store).calls =
      [.check email,
       .create email pw ((jsSplit (nm.getD "") ' ').headD "")
         (joinSep " " ((jsSplit (nm.getD "") ' ').drop 1)) email] ∧
    (beforeHook env hp fu fa now
        { path := "/sign-up/email",
          body := some { email := some email, password := pw, name := nm }, user := cu }
        store).store = store := by
  cases hcr : (createEatzyUser env.create).created <;>
    simp [beforeHook, truthyStr, hemail, hex, hcr, orElseStr_self]

/-- Witness for C8's amended statement: the spec's own example, sign-up with
name "Ann Lee", produces firstname "Ann" and lastname "Lee". -/
theorem C8_name_split_amended_witness :
    (beforeHook { check := .ok { userExists := false, user := none, message := none },
                  authorize := .netErr "down",
                  create := .ok { created := false, user := none } }
        (fun p => p) "u1" "a1" 0
        { path := "/sign-up/email",
          body := some { email := some "new@x.com", password := some "pw123456",
                         name := some "Ann Lee" }, user := none }
        { users := [], accounts := [] }).calls =
      [.check "new@x.com",
       .create "new@x.com" (some "pw123456") "Ann" "Lee" "new@x.com"] := by
  have h := (C8_name_split_amended
    { check := .ok { userExists := false, user := none, message := none },
      authorize := .netErr "down", create := .ok { created := false, user := none } }
    (fun p => p) "u1" "a1" 0 "new@x.com" (some "pw123456") (some "Ann Lee") none
    { users := [], accounts := [] } (by decide) (by decide)).1
  exact h.trans (by decide)

/-- C7 (counterexample): the claim's substring-containment rule for patterns
with neither a leading dot nor a scheme does not exist in the code — the
pattern "example.com" matches origin "https://example.com" by containment
under the spec's rule, but `isAllowedDomain` requires exact equality and the
CORS callback rejects the origin. -/
theorem C7_origin_policy_counterexample :
    specPatternMatch "https://example.com" "example.com" = true ∧
    isAllowedDomain ["example.com"] "https://example.com" = false ∧
    corsOrigin [] ["example.com"] [] (some "https://example.com") = none := by
  refine ⟨by decide, by decide, by decide⟩

/-- C7 (amended): exact membership in the trusted-origin list is checked
first; origins containing "localhost" or a configured environment hostname
are then allowed; then each configured pattern in order: a pattern starting
with '.' allows an origin ending with that suffix, and any other pattern
(scheme or not) requires exact equality — there is no substring-containment
rule.  First match wins; an origin matching no rule is rejected.  The two
concrete examples of the claim hold. -/
theorem C7_origin_policy_amended :
    (∀ (patterns : List String) (origin : String),
      isAllowedDomain patterns origin = true ↔
        ∃ p ∈ patterns, (strStartsWith p "." = true ∧ strEndsWith origin p = true) ∨
          (strStartsWith p "." = false ∧ origin = p)) ∧
    (∀ (trusted patterns envH : List String) (origin : String),
      trusted.contains origin = true →
      corsOrigin trusted patterns envH (some origin) = some origin) ∧
    (∀ (trusted patterns envH : List String) (origin : String),
      isAllowedDomain patterns origin = true →
      corsOrigin trusted patterns envH (some origin) = some origin) ∧
    (∀ (trusted patterns envH : List String) (origin : String),
      origin ≠ "" →
      trusted.contains origin = false →
      strContainsSub origin "localhost" = false →
      envH.any (fun h => strContainsSub origin h) = false →
      isAllowedDomain patterns origin = false →
      corsOrigin trusted patterns envH (some origin) = none) ∧
    (isAllowedDomain [".example.com"] "https://sub.example.com" = true ∧
     isAllowedDomain ["https://example.com"] "https://example.com" = true) := by
  have hchar : ∀ (patterns : List String) (origin : String),
      isAllowedDomain patterns origin = true ↔
        ∃ p ∈ patterns, (strStartsWith p "." = true ∧ strEndsWith origin p = true) ∨
          (strStartsWith p "." = false ∧ origin = p) := by
    intro patterns origin
    induction patterns with
    | nil => simp [isAllowedDomain]
    | cons p rest ih =>
      by_cases hdot : strStartsWith p "."
      · by_cases hend : strEndsWith origin p <;>
          simp [isAllowedDomain, hdot, hend, ih]
      · by_cases heq : origin = p <;>
          simp [isAllowedDomain, hdot, heq, ih]
  refine ⟨hchar, ?_, ?_, ?_, by decide, by decide⟩
  · intro trusted patterns envH origin htr
    have htr' : origin ∈ trusted := by simpa using htr
    by_cases h0 : origin = "" <;> simp [corsOrigin, h0, htr']
  · intro trusted patterns envH origin hdom
    by_cases h0 : origin = ""
    · simp [corsOrigin, h0]
    · by_cases htr : origin ∈ trusted <;>
        by_cases hloc : strContainsSub origin "localhost" = true <;>
        by_cases henv : (envH.any fun h => strContainsSub origin h) = true <;>
        simp [corsOrigin, h0, htr, hloc, henv, hdom]
  · intro trusted patterns envH origin h0 htr hloc henv hdom
    have htr' : origin ∉ trusted := by simpa using htr
    have henv' : ∀ x ∈ envH, strContainsSub origin x = false := by simpa using henv
    simp [corsOrigin, h0, htr', hloc, hdom]
    exact henv' 

/-- Witness for C7's amended statement at the claim's concrete example. -/
theorem C7_origin_policy_amended_witness :
    corsOrigin [] [".example.com"] [] (some "https://sub.example.com") =
      some "https://sub.example.com" :=
  C7_origin_policy_amended.2.2.1 [] [".example.com"] [] "https://sub.example.com" (by decide)

/-- C5 (counterexample): the token "abc%" matches no session, yet Verify
answers the 500-class unexpected-failure outcome, not the invalid/expired
negative result: `decodeURIComponent("abc%")` throws `URIError`, which the
handler's outer catch converts to HTTP 500. -/
theorem C5_verify_no_throw_counterexample :
    (apiVerify (fun _ => none) (some "abc%")).1 = .serverError := by decide

/-- C5 (amended): a missing or empty token yields the 400 outcome; a token
that percent-decodes successfully (or contains no percent sign) and matches
no session — under neither its decoded nor its raw form — yields exactly the
401 invalid/expired result; but a token with malformed percent-encoding
makes `decodeURIComponent` throw, which the handler reports as the 500-class
unexpected-failure outcome. -/
theorem C5_verify_no_throw_amended (gs : String → Option SessionData) (t d : String) :
    apiVerify gs none = (.missingToken, 0) ∧
    apiVerify gs (some "") = (.missingToken, 0) ∧
    (t ≠ "" → decodeURIComponentOpt t = some d → gs d = none → gs t = none →
      (apiVerify gs (some t)).1 = .invalidToken) ∧
    (t ≠ "" → decodeURIComponentOpt t = none →
      (apiVerify gs (some t)).1 = .serverError) := by
  refine ⟨rfl, by simp [apiVerify], ?_, ?_⟩
  · intro ht hdec hgs hgs2
    by_cases hc : strContainsSub t "%"
    · by_cases hne : t = d
      · subst hne
        simp [apiVerify, ht, hc, hdec, hgs]
      · simp [apiVerify, ht, hc, hdec, hgs, hne, hgs2]
    · simp [apiVerify, ht, hc, hgs2]
  · intro ht hdec
    by_cases hc : strContainsSub t "%"
    · simp [apiVerify, ht, hc, hdec]
    · rw [decode_no_pct (by simpa using hc)] at hdec
      cases hdec

/-- Witness for C5's amended statement at a decodable token with no session
under either form. -/
theorem C5_verify_no_throw_amended_witness :
    (apiVerify (fun _ => none) (some "a%20b")).1 = .invalidToken :=
  (C5_verify_no_throw_amended (fun _ => none) "a%20b" "a b").2.2.1
    (by decide) (by decide) (by decide) (by decide)

/-- C2: the lookup contract of Verify — (1) a percent-free token with a
session present performs exactly one lookup and succeeds; (2) every call
performs at most two lookups; (3) a second lookup happens only when decoding
actually changed the token and the first lookup found nothing; a session
keyed by (4) the decoded form or (5) the raw form is found within two
lookups; (6) keyed by neither, Verify answers invalid within two lookups. -/
theorem C2_verify_lookup_contract :
    (∀ (gs : String → Option SessionData) (t : String) (sd : SessionData),
      t ≠ "" → strContainsSub t "%" = false → gs t = some sd →
      apiVerify gs (some t) =
        (.ok (mkVerifyUserOut sd.user) (mkVerifySessionOut sd.session), 1)) ∧
    (∀ (gs : String → Option SessionData) (token : Option String),
      (apiVerify gs token).2 ≤ 2) ∧
    (∀ (gs : String → Option SessionData) (t : String),
      (apiVerify gs (some t)).2 = 2 →
      ∃ d, decodeURIComponentOpt t = some d ∧ d ≠ t ∧ gs d = none) ∧
    (∀ (gs : String → Option SessionData) (t d : String) (sd : SessionData),
      t ≠ "" → decodeURIComponentOpt t = some d → gs d = some sd →
      (∃ u s, (apiVerify gs (some t)).1 = .ok u s) ∧ (apiVerify gs (some t)).2 ≤ 2) ∧
    (∀ (gs : String → Option SessionData) (t d : String) (sd : SessionData),
      t ≠ "" → decodeURIComponentOpt t = some d → gs d = none → gs t = some sd →
      (∃ u s, (apiVerify gs (some t)).1 = .ok u s) ∧ (apiVerify gs (some t)).2 ≤ 2) ∧
    (∀ (gs : String → Option SessionData) (t d : String),
      t ≠ "" → decodeURIComponentOpt t = some d → gs d = none → gs t = none →
      (apiVerify gs (some t)).1 = .invalidToken ∧ (apiVerify gs (some t)).2 ≤ 2) := by
  refine ⟨?_, ?_, ?_, ?_, ?_, ?_⟩
  · intro gs t sd ht hc hgs
    simp [apiVerify, ht, hc, hgs]
  · intro gs token
    rcases token with _ | t
    · simp [apiVerify]
    · by_cases ht : t = ""
      · simp [apiVerify, ht]
      · by_cases hc : strContainsSub t "%"
        · cases hdec : decodeURIComponentOpt t with
          | none => simp [apiVerify, ht, hc, hdec]
          | some d =>
            cases hgs : gs d with
            | some sd => simp [apiVerify, ht, hc, hdec, hgs]
            | none =>
              by_cases hne : t = d
              · subst hne
                simp [apiVerify, ht, hc, hdec, hgs]
              · cases hgs2 : gs t with
                | some sd2 => simp [apiVerify, ht, hc, hdec, hgs, hne, hgs2]
                | none => simp [apiVerify, ht, hc, hdec, hgs, hne, hgs2]
        · cases hgs : gs t with
          | some sd => simp [apiVerify, ht, hc, hgs]
          | none => simp [apiVerify, ht, hc, hgs]
  · intro gs t h2
    by_cases ht : t = ""
    · simp [apiVerify, ht] at h2
    · by_cases hc : strContainsSub t "%"
      · cases hdec : decodeURIComponentOpt t with
        | none => simp [apiVerify, ht, hc, hdec] at h2
        | some d =>
          cases hgs : gs d with
          | some sd => simp [apiVerify, ht, hc, hdec, hgs] at h2
          | none =>
            by_cases hne : t = d
            · subst hne
              simp [apiVerify, ht, hc, hdec, hgs] at h2
            · exact ⟨d, rfl, Ne.symm hne, hgs⟩
      · cases hgs : gs t with
        | some sd => simp [apiVerify, ht, hc, hgs] at h2
        | none => simp [apiVerify, ht, hc, hgs] at h2
  · intro gs t d sd ht hdec hgs
    by_cases hc : strContainsSub t "%"
    · exact ⟨⟨mkVerifyUserOut sd.user, mkVerifySessionOut sd.session,
        by simp [apiVerify, ht, hc, hdec, hgs]⟩,
        by simp [apiVerify, ht, hc, hdec, hgs]⟩
    · have hdt : t = d := by
        rw [decode_no_pct (by simpa using hc)] at hdec
        exact (Option.some_inj.mp hdec)
      subst hdt
      exact ⟨⟨mkVerifyUserOut sd.user, mkVerifySessionOut sd.session,
        by simp [apiVerify, ht, hc, hgs]⟩,
        by simp [apiVerify, ht, hc, hgs]⟩
  · intro gs t d sd ht hdec hgs hgs2
    by_cases hc : strContainsSub t "%"
    · have hne : ¬ t = d := fun he => by rw [← he, hgs2] at hgs; cases hgs
      exact ⟨⟨mkVerifyUserOut sd.user, mkVerifySessionOut sd.session,
        by simp [apiVerify, ht, hc, hdec, hgs, hne, hgs2]⟩,
        by simp [apiVerify, ht, hc, hdec, hgs, hne, hgs2]⟩
    · have hdt : t = d := by
        rw [decode_no_pct (by simpa using hc)] at hdec
        exact (Option.some_inj.mp hdec)
      rw [← hdt, hgs2] at hgs
      cases hgs
  · intro gs t d ht hdec hgs hgs2
    by_cases hc : strContainsSub t "%"
    · by_cases hne : t = d
      · subst hne
        constructor <;> simp [apiVerify, ht, hc, hdec, hgs]
      · constructor <;> simp [apiVerify, ht, hc, hdec, hgs, hne, hgs2]
    · constructor <;> simp [apiVerify, ht, hc, hgs2]

/-- Witness for C2 at a concrete percent-free token with a session present. -/
theorem C2_verify_lookup_contract_witness :
    apiVerify
      (fun s => if s = "tok123" then
        some { user := { id := "u1", email := "ann@x.com", name := "Ann", emailVerified := true },
               session := { id := "s1", userId := "u1", expiresAt := 99 } } else none)
      (some "tok123") =
      (.ok { id := "u1", email := "ann@x.com", name := "Ann", username := "ann",
             emailVerified := true }
           { id := "s1", userId := "u1", expiresAt := 99 }, 1) := by
  have h := C2_verify_lookup_contract.1
    (fun s => if s = "tok123" then
      some { user := { id := "u1", email := "ann@x.com", name := "Ann", emailVerified := true },
             session := { id := "s1", userId := "u1", expiresAt := 99 } } else none)
    "tok123"
    { user := { id := "u1", email := "ann@x.com", name := "Ann", emailVerified := true },
      session := { id := "s1", userId := "u1", expiresAt := 99 } }
    (by decide) (by decide) (by decide)
  exact h.trans (by decide)

/-- A delete whose initial read produces a falsy value reports not-found. -/
theorem configDeleteKey_notFound (now : Nat) (g s : Bool) (st : ConfigState) (key : String)
    (h : truthyStr (ConfigService.get now g st key none).1 = none) :
    (configDeleteKey now g s st key).1 = .notFound := by
  unfold configDeleteKey
  dsimp only
  rw [h]

/-- C9: the administrative DELETE of a configuration key does not remove the
key: it overwrites the entry with the empty string under category "deleted",
so the key still exists in the table and in the cache, subsequent reads
return the empty string (found, not 404), and a second DELETE reports
not-found because the empty value is falsy in the existence check. -/
theorem C9_delete_overwrites_with_empty
    (now : Nat) (st : ConfigState) (key v : String)
    (hget : (ConfigService.get now true st key none).1 = some v) (hv : v ≠ "") :
    (configDeleteKey now true true st key).1 = .deleted ∧
    (∃ row ∈ (configDeleteKey now true true st key).2.table,
        row.key = key ∧ row.value = "" ∧ row.category = "deleted") ∧
    mapLookup (configDeleteKey now true true st key).2.cache key = some "" ∧
    (∀ now2, (configGetKey now2 true (configDeleteKey now true true st key).2 key).1 =
      .found "") ∧
    (∀ now3 g s, (configDeleteKey now3 g s (configDeleteKey now true true st key).2 key).1 =
      .notFound) := by
  have hres : configDeleteKey now true true st key =
      (.deleted,
        { table := tableUpsert now (ConfigService.get now true st key none).2.table key ""
            (some "Deleted configuration") "deleted" false,
          cache := mapSet (ConfigService.get now true st key none).2.cache key "",
          lastCacheUpdate := (ConfigService.get now true st key none).2.lastCacheUpdate }) := by
    simp [configDeleteKey, hget, truthyStr, hv, ConfigService.set]
  obtain ⟨row, hfind, hkey, hval, hcat⟩ :=
    tableUpsert_find now (ConfigService.get now true st key none).2.table key ""
      (some "Deleted configuration") "deleted" false
  have hc2 : mapLookup (configDeleteKey now true true st key).2.cache key = some "" := by
    rw [hres]
    exact mapLookup_mapSet_self _ _ _
  have ht2 : ∃ r, (configDeleteKey now true true st key).2.table.find?
      (fun r => r.key = key) = some r ∧ r.value = "" := by
    rw [hres]
    exact ⟨row, hfind, hval⟩
  refine ⟨by rw [hres], ?_, hc2, ?_, ?_⟩
  · refine ⟨row, ?_, hkey, hval, hcat⟩
    rw [hres]
    exact List.mem_of_find?_eq_some hfind
  · intro now2
    have := get_empty_after_delete now2 (configDeleteKey now true true st key).2 key hc2 ht2
    simp [configGetKey, this]
  · intro now3 g s
    exact configDeleteKey_notFound now3 g s _ key
      (get_falsy_after_delete now3 g (configDeleteKey now true true st key).2 key hc2 ht2)

/-- Witness for C9 at a concrete one-row configuration store. -/
theorem C9_delete_overwrites_with_empty_witness :
    (configDeleteKey 10 true true
      { table := [{ id := "i1", key := "K", value := "v", description := none,
                    category := "general", isSecret := false, createdAt := 0, updatedAt := 0 }],
        cache := [], lastCacheUpdate := 0 } "K").1 = .deleted ∧
    (configGetKey 11 true
      (configDeleteKey 10 true true
        { table := [{ id := "i1", key := "K", value := "v", description := none,
                      category := "general", isSecret := false, createdAt := 0, updatedAt := 0 }],
          cache := [], lastCacheUpdate := 0 } "K").2 "K").1 = .found "" ∧
    (configDeleteKey 12 true true
      (configDeleteKey 10 true true
        { table := [{ id := "i1", key := "K", value := "v", description := none,
                      category := "general", isSecret := false, createdAt := 0, updatedAt := 0 }],
          cache := [], lastCacheUpdate := 0 } "K").2 "K").1 = .notFound := by
  have h := C9_delete_overwrites_with_empty 10
    { table := [{ id := "i1", key := "K", value := "v", description := none,
                  category := "general", isSecret := false, createdAt := 0, updatedAt := 0 }],
      cache := [], lastCacheUpdate := 0 } "K" "v" (by decide) (by decide)
  exact ⟨h.1, h.2.2.2.1 11, h.2.2.2.2 12 true true⟩

/-- C4: credential-hash migration is idempotent.  Starting from a password
credential account whose stored hash is non-empty and lacks the ':' format
marker, a first successful sign-in re-hashes the raw credential and
overwrites the record (stamping its update time), and a second successful
sign-in with the same credential does not fail, does not re-hash, and leaves
the whole local store — hash bytes included — exactly as after the first
call.  (`hashPassword` is better-auth's hash; its output carries the ':'
delimiter, which is the `hnew` hypothesis.) -/
theorem C4_migration_idempotent
    (env : LegacyEnv) (hashPassword : String → String)
    (fu1 fa1 fu2 fa2 : String) (now1 now2 : Nat)
    (email : String) (pw nm : Option String) (cu : Option CtxUser)
    (store : LocalStore) (u : UserRec) (acc : AccountRec) (h0 : String)
    (hemail : email ≠ "")
    (hex : (checkUserExists env.check).userExists = true)
    (hval : (verifyExistingUser email env.authorize).valid = true)
    (huser : findUserByEmail store email = some u)
    (hacc : findCredentialAccount store u.id = some acc)
    (hpw : acc.password = some h0) (hh0 : h0 ≠ "")
    (hfmt : strContainsSub h0 ":" = false)
    (hnew : strContainsSub (hashPassword (pw.getD "")) ":" = true) :
    (beforeHook env hashPassword fu1 fa1 now1
        { path := "/sign-in/email",
          body := some { email := some email, password := pw, name := nm }, user := cu }
        store).outcome =
      .proceed (some (.existingSignIn (verifyExistingUser email env.authorize).userData)) ∧
    findCredentialAccount
        (beforeHook env hashPassword fu1 fa1 now1
          { path := "/sign-in/email",
            body := some { email := some email, password := pw, name := nm }, user := cu }
          store).store u.id =
      some { acc with password := some (hashPassword (pw.getD "")), updatedAt := now1 } ∧
    (beforeHook env hashPassword fu2 fa2 now2
        { path := "/sign-in/email",
          body := some { email := some email, password := pw, name := nm }, user := cu }
        (beforeHook env hashPassword fu1 fa1 now1
          { path := "/sign-in/email",
            body := some { email := some email, password := pw, name := nm }, user := cu }
          store).store).outcome =
      .proceed (some (.existingSignIn (verifyExistingUser email env.authorize).userData)) ∧
    (beforeHook env hashPassword fu2 fa2 now2
        { path := "/sign-in/email",
          body := some { email := some email, password := pw, name := nm }, user := cu }
        (beforeHook env hashPassword fu1 fa1 now1
          { path := "/sign-in/email",
            body := some { email := some email, password := pw, name := nm }, user := cu }
          store).store).store =
      (beforeHook env hashPassword fu1 fa1 now1
        { path := "/sign-in/email",
          body := some { email := some email, password := pw, name := nm }, user := cu }
        store).store := by
  have hr1 : beforeHook env hashPassword fu1 fa1 now1
      { path := "/sign-in/email",
        body := some { email := some email, password := pw, name := nm }, user := cu }
      store =
      { outcome := .proceed (some (.existingSignIn
          (verifyExistingUser email env.authorize).userData)),
        store := { store with accounts := store.accounts.map fun a =>
          if a.id = acc.id then
            { a with password := some (hashPassword (pw.getD "")), updatedAt := now1 }
          else a },
        calls := [.check email, .authorize email pw] } := by
    simp [beforeHook, truthyStr, hemail, hex, hval, huser, hacc, hpw, hh0, hfmt]
  have hfind1 : findCredentialAccount
      { store with accounts := store.accounts.map fun a =>
        if a.id = acc.id then
          { a with password := some (hashPassword (pw.getD "")), updatedAt := now1 }
        else a } u.id =
      some { acc with password := some (hashPassword (pw.getD "")), updatedAt := now1 } := by
    unfold findCredentialAccount
    show ((store.accounts.map fun a =>
      if a.id = acc.id then
        { a with password := some (hashPassword (pw.getD "")), updatedAt := now1 }
      else a).find? fun a => a.userId = u.id ∧ a.providerId = "credential") = _
    rw [List.find?_map]
    have hpred : ((fun a : AccountRec =>
        decide (a.userId = u.id ∧ a.providerId = "credential")) ∘
        (fun a : AccountRec => if a.id = acc.id then
          { a with password := some (hashPassword (pw.getD "")), updatedAt := now1 }
        else a)) =
        (fun a : AccountRec => decide (a.userId = u.id ∧ a.providerId = "credential")) := by
      funext a
      by_cases ha : a.id = acc.id <;> simp [ha]
    rw [hpred]
    have hacc' : store.accounts.find?
        (fun a => a.userId = u.id ∧ a.providerId = "credential") = some acc := hacc
    rw [hacc']
    simp
  have huser2 : findUserByEmail
      { store with accounts := store.accounts.map fun a =>
        if a.id = acc.id then
          { a with password := some (hashPassword (pw.getD "")), updatedAt := now1 }
        else a } email = some u := huser
  have hr2 : beforeHook env hashPassword fu2 fa2 now2
      { path := "/sign-in/email",
        body := some { email := some email, password := pw, name := nm }, user := cu }
      { store with accounts := store.accounts.map fun a =>
        if a.id = acc.id then
          { a with password := some (hashPassword (pw.getD "")), updatedAt := now1 }
        else a } =
      { outcome := .proceed (some (.existingSignIn
          (verifyExistingUser email env.authorize).userData)),
        store := { store with accounts := store.accounts.map fun a =>
          if a.id = acc.id then
            { a with password := some (hashPassword (pw.getD "")), updatedAt := now1 }
          else a },
        calls := [.check email, .authorize email pw] } := by
    simp [beforeHook, truthyStr, hemail, hex, hval, huser2, hfind1, hnew]
  refine ⟨by rw [hr1], ?_, ?_, ?_⟩
  · rw [hr1]
    exact hfind1
  · rw [hr1]
    rw [hr2]
  · rw [hr1]
    rw [hr2]

/-- Witness for C4 at a concrete pre-migration MD5-style hash. -/
theorem C4_migration_idempotent_witness :
    (beforeHook envFixture (fun p => "h:" ++ p) "u2" "a2" 9 ctxFixture
        (beforeHook envFixture (fun p => "h:" ++ p) "u1" "a1" 5 ctxFixture
          storeFixture).store).store =
      (beforeHook envFixture (fun p => "h:" ++ p) "u1" "a1" 5 ctxFixture
        storeFixture).store ∧
    findCredentialAccount
        (beforeHook envFixture (fun p => "h:" ++ p) "u1" "a1" 5 ctxFixture
          storeFixture).store "U" =
      some { id := "A", accountId := "user@x.com", providerId := "credential", userId := "U"
             password := some "h:pw", createdAt := 0, updatedAt := 5 } := by
  have h := C4_migration_idempotent envFixture (fun p => "h:" ++ p)
    "u1" "a1" "u2" "a2" 5 9 "user@x.com" (some "pw") none none
    storeFixture userFixture accFixture "0123456789abcdef0123456789abcdef"
    (by decide) (by decide) (by decide) (by decide) (by decide) (by decide) (by decide)
    (by decide) (by decide)
  exact ⟨h.2.2.2, h.2.1.trans (by decide)⟩

end AuthService
